import Mathlib

/-
Verification of the go-sasl negotiation-policy and DIGEST-MD5 security-context
code. Bytes are modelled as `Nat` values below 256, Go slices as `List Nat`,
Go `int` as `Int`, and Go runtime faults (out-of-range indexing or slicing,
negative-length `make`) as explicit error values distinguished from ordinary
returned Go errors.
-/

namespace GoSasl

/-- Outcome of a Go operation that is not a normal value: either a runtime
fault (a panic in Go: out-of-range index store, out-of-range slice expression,
negative-length make) or an ordinary returned error. -/
inductive GoEx where
  | panicIndex
  | panicSlice
  | panicMakeNegative
  | errTooManyBytes
  | errOutOfOrder
  | errInvalidToken
  | errKeySize
  deriving DecidableEq, Repr

instance {ε α : Type} [DecidableEq ε] [DecidableEq α] :
    DecidableEq (Except ε α) := fun x y =>
  match x, y with
  | .ok a, .ok b =>
    if h : a = b then isTrue (by rw [h])
    else isFalse fun he => h (Except.ok.inj he)
  | .error a, .error b =>
    if h : a = b then isTrue (by rw [h])
    else isFalse fun he => h (Except.error.inj he)
  | .ok _, .error _ => isFalse fun he => Except.noConfusion he
  | .error _, .ok _ => isFalse fun he => Except.noConfusion he

/-- Whether a `GoEx` is a runtime fault (Go panic) rather than a returned error. -/
def GoEx.isPanic : GoEx → Bool
  | .panicIndex => true
  | .panicSlice => true
  | .panicMakeNegative => true
  | _ => false

/-- Go's builtin copy(dst, src): overwrites the first min(len dst, len src)
elements of dst with those of src, leaving the rest of dst unchanged. -/
def goCopy (dst src : List Nat) : List Nat :=
  let n := min dst.length src.length
  src.take n ++ dst.drop n

/-- Go's copy(dst[off:], src). -/
def goCopyAt (dst : List Nat) (off : Nat) (src : List Nat) : List Nat :=
  dst.take off ++ goCopy (dst.drop off) src

/-- ASCII bytes of a string constant. -/
def strBytes (s : String) : List Nat := s.data.map Char.toNat

/-! ### MD5 and HMAC-MD5 (Go's crypto/md5 and crypto/hmac, external stdlib) -/

/-- Left-rotation of a 32-bit word represented as a `Nat` below `2 ^ 32`. -/
def rotl32 (x n : Nat) : Nat :=
  ((x <<< n) ||| (x >>> (32 - n))) % 4294967296

/-- Bitwise complement of a 32-bit word. -/
def not32 (x : Nat) : Nat := x ^^^ 4294967295

/-- Per-step shift amounts of MD5 (RFC 1321). -/
def md5S : List Nat :=
  [7, 12, 17, 22, 7, 12, 17, 22, 7, 12, 17, 22, 7, 12, 17, 22,
   5, 9, 14, 20, 5, 9, 14, 20, 5, 9, 14, 20, 5, 9, 14, 20,
   4, 11, 16, 23, 4, 11, 16, 23, 4, 11, 16, 23, 4, 11, 16, 23,
   6, 10, 15, 21, 6, 10, 15, 21, 6, 10, 15, 21, 6, 10, 15, 21]

/-- Per-step additive constants of MD5 (RFC 1321). -/
def md5K : List Nat :=
  [0xd76aa478, 0xe8c7b756, 0x242070db, 0xc1bdceee,
   0xf57c0faf, 0x4787c62a, 0xa8304613, 0xfd469501,
   0x698098d8, 0x8b44f7af, 0xffff5bb1, 0x895cd7be,
   0x6b901122, 0xfd987193, 0xa679438e, 0x49b40821,
   0xf61e2562, 0xc040b340, 0x265e5a51, 0xe9b6c7aa,
   0xd62f105d, 0x02441453, 0xd8a1e681, 0xe7d3fbc8,
   0x21e1cde6, 0xc33707d6, 0xf4d50d87, 0x455a14ed,
   0xa9e3e905, 0xfcefa3f8, 0x676f02d9, 0x8d2a4c8a,
   0xfffa3942, 0x8771f681, 0x6d9d6122, 0xfde5380c,
   0xa4beea44, 0x4bdecfa9, 0xf6bb4b60, 0xbebfbc70,
   0x289b7ec6, 0xeaa127fa, 0xd4ef3085, 0x04881d05,
   0xd9d4d039, 0xe6db99e5, 0x1fa27cf8, 0xc4ac5665,
   0xf4292244, 0x432aff97, 0xab9423a7, 0xfc93a039,
   0x655b59c3, 0x8f0ccc92, 0xffeff47d, 0x85845dd1,
   0x6fa87e4f, 0xfe2ce6e0, 0xa3014314, 0x4e0811a1,
   0xf7537e82, 0xbd3af235, 0x2ad7d2bb, 0xeb86d391]

/-- Decode 4 consecutive bytes (little-endian) starting at `4 * w` as a word. -/
def wordLE (block : List Nat) (w : Nat) : Nat :=
  (block.getD (4 * w) 0) + 256 * (block.getD (4 * w + 1) 0) +
    65536 * (block.getD (4 * w + 2) 0) + 16777216 * (block.getD (4 * w + 3) 0)

/-- One MD5 step. -/
def md5Step (block : List Nat) (st : Nat × Nat × Nat × Nat) (i : Nat) :
    Nat × Nat × Nat × Nat :=
  let a := st.1
  let b := st.2.1
  let c := st.2.2.1
  let d := st.2.2.2
  let f :=
    if i < 16 then (b &&& c) ||| (not32 b &&& d)
    else if i < 32 then (d &&& b) ||| (not32 d &&& c)
    else if i < 48 then b ^^^ c ^^^ d
    else c ^^^ (b ||| not32 d)
  let g :=
    if i < 16 then i
    else if i < 32 then (5 * i + 1) % 16
    else if i < 48 then (3 * i + 5) % 16
    else (7 * i) % 16
  let sum := (a + f + md5K.getD i 0 + wordLE block g) % 4294967296
  (d, (b + rotl32 sum (md5S.getD i 0)) % 4294967296, b, c)

/-- Process one 64-byte block. -/
def md5Block (st : Nat × Nat × Nat × Nat) (block : List Nat) :
    Nat × Nat × Nat × Nat :=
  let r := (List.range 64).foldl (md5Step block) st
  ((st.1 + r.1) % 4294967296, (st.2.1 + r.2.1) % 4294967296,
   (st.2.2.1 + r.2.2.1) % 4294967296, (st.2.2.2 + r.2.2.2) % 4294967296)

/-- Little-endian bytes of a word, `n` bytes long. -/
def leBytes (x n : Nat) : List Nat :=
  (List.range n).map fun i => (x >>> (8 * i)) &&& 255

/-- MD5 padding: `0x80`, zeros up to 56 mod 64, then the 8-byte LE bit length. -/
def md5Pad (msg : List Nat) : List Nat :=
  msg ++ [128] ++ List.replicate ((119 - msg.length % 64) % 64) 0 ++
    leBytes (msg.length * 8) 8

/-- Split a list into chunks of 64 elements (structural recursion on a fuel
bound so that the kernel can evaluate it). -/
def chunks64Go : Nat → List Nat → List (List Nat)
  | 0, _ => []
  | fuel + 1, l => if l = [] then [] else l.take 64 :: chunks64Go fuel (l.drop 64)

/-- Split a list into chunks of 64 elements. -/
def chunks64 (l : List Nat) : List (List Nat) :=
  chunks64Go l.length l

/-- MD5 of a byte sequence (RFC 1321), the digest used by Go's crypto/md5;
validated below against the standard test vectors. -/
def md5 (msg : List Nat) : List Nat :=
  let st := (chunks64 (md5Pad msg)).foldl md5Block
    (0x67452301, 0xefcdab89, 0x98badcfe, 0x10325476)
  leBytes st.1 4 ++ leBytes st.2.1 4 ++ leBytes st.2.2.1 4 ++ leBytes st.2.2.2 4

/-- HMAC-MD5 (RFC 2104), as produced by Go's crypto/hmac over crypto/md5. -/
def hmacMd5 (key msg : List Nat) : List Nat :=
  let k0 := if 64 < key.length then md5 key else key
  let k1 := k0 ++ List.replicate (64 - k0.length) 0
  let ipad := k1.map fun b => b ^^^ 0x36
  let opad := k1.map fun b => b ^^^ 0x5c
  md5 (opad ++ md5 (ipad ++ msg))

theorem leBytes_length (x n : Nat) : (leBytes x n).length = n := by
  simp [leBytes]

theorem md5_length (msg : List Nat) : (md5 msg).length = 16 := by
  simp [md5, leBytes_length]

theorem hmacMd5_length (key msg : List Nat) : (hmacMd5 key msg).length = 16 := by
  simp [hmacMd5, md5_length]

/-- Sanity check of the MD5 model: the RFC 1321 digest of the empty message. -/
theorem md5_empty_vector :
    md5 [] = [0xd4, 0x1d, 0x8c, 0xd9, 0x8f, 0x00, 0xb2, 0x04,
              0xe9, 0x80, 0x09, 0x98, 0xec, 0xf8, 0x42, 0x7e] := by decide

/-! ### The sasl package: protection masks and preference parsing -/

def NO_PROTECTION : Nat := 1
def INTEGRITY_ONLY_PROTECTION : Nat := 2
def PRIVACY_PROTECTION : Nat := 4
def LOW_STRENGTH : Nat := 1
def MEDIUM_STRENGTH : Nat := 2
def HIGH_STRENGTH : Nat := 4

def DEFAULT_QOP : List Nat := [NO_PROTECTION]
def QOP_TOKENS : List (List Nat) :=
  [strBytes "auth-conf", strBytes "auth-int", strBytes "auth"]
def QOP_MASKS : List Nat :=
  [PRIVACY_PROTECTION, INTEGRITY_ONLY_PROTECTION, NO_PROTECTION]
def DEFAULT_STRENGTH : List Nat := [HIGH_STRENGTH, MEDIUM_STRENGTH, LOW_STRENGTH]
def STRENGTH_TOKENS : List (List Nat) :=
  [strBytes "low", strBytes "medium", strBytes "high"]
def STRENGTH_MASKS : List Nat := [LOW_STRENGTH, MEDIUM_STRENGTH, HIGH_STRENGTH]

/-- Go's strings.ToLower restricted to ASCII (all the strings these call sites
handle are ASCII): map bytes A-Z to a-z. -/
def goToLowerByte (b : Nat) : Nat := if 65 ≤ b ∧ b ≤ 90 then b + 32 else b

/-- Lower-case an ASCII byte string. -/
def goToLower (s : List Nat) : List Nat := s.map goToLowerByte

/-- Go's strings.Split(s, sep) for a non-empty separator: split around every
non-overlapping occurrence of the full separator byte string, scanning left to
right. The fuel bounds the recursion by the input's length. -/
def goSplitGo (sep : List Nat) : Nat → List Nat → List Nat → List (List Nat)
  | 0, acc, rest => [acc.reverse ++ rest]
  | fuel + 1, acc, rest =>
    if sep.isPrefixOf rest ∧ sep ≠ [] then
      acc.reverse :: goSplitGo sep fuel [] (rest.drop sep.length)
    else
      match rest with
      | [] => [acc.reverse]
      | c :: cs => goSplitGo sep fuel (c :: acc) cs

/-- Go's strings.Split for a non-empty separator. -/
def goSplit (s sep : List Nat) : List (List Nat) :=
  goSplitGo sep (s.length + 1) [] s

/-- Inner matching loop of Sasl.parseProp: `for j := 0; !found && j < len(vals); j++`.
The loop guard compares `parts[i]` against `vals[i]` — the outer index, exactly as in
the source — so the comparison does not vary with `j`. Returns the `j` at which
`found` becomes true, if any. -/
def parsePropScanGo (parts vals : List (List Nat)) (i : Nat) :
    Nat → Nat → Option Nat
  | 0, _ => none
  | fuel + 1, j =>
    if goToLower (parts.getD i []) ≠ goToLower (vals.getD i []) then
      parsePropScanGo parts vals i fuel (j + 1)
    else some j

/-- Runs the inner loop from `j = 0`; the fuel `vals.length` equals the number
of iterations the guard `j < len(vals)` allows. -/
def parsePropScan (parts vals : List (List Nat)) (i : Nat) : Option Nat :=
  parsePropScanGo parts vals i vals.length 0

/-- Outer loop of Sasl.parseProp: `for i = 0; i < len(answer) && i < len(parts); i++`,
followed by the zero-fill of the remaining slots on exit. The fuel starts at
`answer.length` and stays in sync with `answer.length - i` (the answer is only
updated by `List.set`, which preserves the length), so exhausting the fuel
coincides with the guard `i < len(answer)` failing. -/
def parsePropLoopGo (parts vals : List (List Nat)) (masks : List Nat)
    (ignore : Bool) : Nat → List Nat → Nat → Except GoEx (List Nat)
  | 0, answer, i => .ok (answer.take i ++ List.replicate (answer.length - i) 0)
  | fuel + 1, answer, i =>
    if i < answer.length ∧ i < parts.length then
      match parsePropScan parts vals i with
      | some j =>
        if j < masks.length then
          parsePropLoopGo parts vals masks ignore fuel
            (answer.set i (masks.getD j 0)) (i + 1)
        else .error .panicIndex
      | none =>
        if ignore then parsePropLoopGo parts vals masks ignore fuel answer (i + 1)
        else .error .errInvalidToken
    else .ok (answer.take i ++ List.replicate (answer.length - i) 0)

/-- Sasl.parseProp. Go's strings.Split is called with the full separator
string ", \t\n" (the four bytes comma, space, tab, newline) — not a character
set. The propName argument (used only inside the error message) and the
saveTokens argument (nil at both call sites modelled here, parseQop and
parseStrength) are omitted. -/
def parseProp (propVal : List Nat) (vals : List (List Nat)) (masks : List Nat)
    (ignore : Bool) : Except GoEx (List Nat) :=
  let parts := goSplit propVal (strBytes ", \t\n")
  let answer := List.replicate vals.length 0
  parsePropLoopGo parts vals masks ignore answer.length answer 0

/-- Sasl.parseQop2 (strings as Go byte strings). -/
def parseQop2 (qop : List Nat) (ignore : Bool) : Except GoEx (List Nat) :=
  if qop = [] then .ok DEFAULT_QOP
  else parseProp qop QOP_TOKENS QOP_MASKS ignore

/-- Sasl.parseQop. -/
def parseQop (qop : List Nat) : Except GoEx (List Nat) :=
  parseQop2 qop false

/-- Sasl.parseStrength. -/
def parseStrength (strength : List Nat) : Except GoEx (List Nat) :=
  if strength.length ≤ 0 then .ok DEFAULT_STRENGTH
  else parseProp strength STRENGTH_TOKENS STRENGTH_MASKS false

/-- Sasl.networkByteOrderToInt: the integer represented by `count` big-endian
bytes starting at `start`; more than 4 bytes is an error. Reading past the end
of the buffer is an out-of-range fault. -/
def networkByteOrderToInt (buf : List Nat) (start count : Nat) :
    Except GoEx Int :=
  if 4 < count then .error .errTooManyBytes
  else if 0 < count ∧ buf.length < start + count then .error .panicIndex
  else .ok ((((List.range count).foldl
    (fun acc idx => (acc <<< 8) ||| ((buf.getD (start + idx) 0) &&& 255)) 0 : Nat) : Int))

/-- Sasl.intToNetworkByteOrder: store `num` (converted to uint32) as `count`
big-endian bytes at `start`; more than 4 bytes is an error. The stores walk
indices `start + count - 1` down to `start`, so a buffer shorter than
`start + count` is an out-of-range fault. -/
def intToNetworkByteOrder (num : Int) (buf : List Nat) (start count : Nat) :
    Except GoEx (List Nat) :=
  if 4 < count then .error .errTooManyBytes
  else if 0 < count ∧ buf.length < start + count then .error .panicIndex
  else
    let u := (num.emod 4294967296).toNat
    .ok (buf.take start ++
      ((List.range count).map fun idx => (u >>> (8 * (count - 1 - idx))) &&& 255) ++
      buf.drop (start + count))

/-! ### The digest package: cipher-strength table and the Integrity context -/

def CLIENT_INT_MAGIC : String :=
  "golang sasl integrity client-to-server magic key"
def SVR_INT_MAGIC : String :=
  "golang sasl integrity server-to-client magic key"

def DES_3_STRENGTH : Nat := HIGH_STRENGTH
def RC4_STRENGTH : Nat := HIGH_STRENGTH
def DES_STRENGTH : Nat := MEDIUM_STRENGTH
def RC4_56_STRENGTH : Nat := MEDIUM_STRENGTH
def RC4_40_STRENGTH : Nat := LOW_STRENGTH

/-- Cipher indices DES3, RC4, DES, RC4_56, RC4_40 (iota order). -/
def DES3 : Nat := 0
def RC4 : Nat := 1
def DES : Nat := 2
def RC4_56 : Nat := 3
def RC4_40 : Nat := 4

def CIPHER_MASKS : List Nat :=
  [DES_3_STRENGTH, RC4_STRENGTH, DES_3_STRENGTH, RC4_56_STRENGTH, RC4_40_STRENGTH]
def CIPHER_TOKENS : List (List Nat) :=
  [strBytes "3des", strBytes "rc4", strBytes "des",
   strBytes "rc4-56", strBytes "rc4-40"]

/-- The Integrity security context. The shared authentication secret hA1 lives
in the embedding MD5Base and is passed explicitly where key derivation needs
it; the remaining fields are exactly the struct's. -/
structure Integrity where
  myKi : List Nat
  peerKi : List Nat
  mySeqNum : Int
  peerSeqNum : Int
  messageType : List Nat
  sequenceNum : List Nat
  deriving DecidableEq, Repr

/-- Integrity.generateIntegrityKeyPair: kic = MD5(hA1 ++ client magic),
kis = MD5(hA1 ++ server magic) — the server magic overwrites the client magic
in the shared key buffer (both magics have the same length) — assigned to
(myKi, peerKi) in clientMode and swapped otherwise. -/
def generateIntegrityKeyPair (clientMode : Bool) (hA1 : List Nat) :
    List Nat × List Nat :=
  let ciMagic := strBytes CLIENT_INT_MAGIC
  let siMagic := strBytes SVR_INT_MAGIC
  let keyBuffer :=
    goCopyAt (goCopyAt (List.replicate (hA1.length + ciMagic.length) 0) 0 hA1)
      hA1.length ciMagic
  let kic := md5 keyBuffer
  let keyBuffer2 := goCopyAt keyBuffer hA1.length siMagic
  let kis := md5 keyBuffer2
  if clientMode then (kic, kis) else (kis, kic)

/-- NewIntegrity: builds `&Integrity{}` (all slice fields nil, i.e. empty),
derives the key pair, then writes the 2-byte message type 1 into the
messageType buffer. The buffer is never allocated, so that write faults. -/
def NewIntegrity (clientMode : Bool) (hA1 : List Nat) : Except GoEx Integrity :=
  let kp := generateIntegrityKeyPair clientMode hA1
  let i : Integrity :=
    { myKi := kp.1, peerKi := kp.2, mySeqNum := 0, peerSeqNum := 0,
      messageType := [], sequenceNum := [] }
  match intToNetworkByteOrder 1 i.messageType 0 2 with
  | .error e => .error e
  | .ok mt => .ok { i with messageType := mt }

/-- The Integrity state NewIntegrity is evidently intended to produce: the keys
generateIntegrityKeyPair assigns, both counters 0, the 2-byte big-endian
message type 1 and a 4-byte sequence-number buffer (the sizes every use in
Wrap and the wire format presuppose). NewIntegrity as written leaves both
buffers empty and faults on its first store (claim C8); the per-message
operations are analysed on this well-formed state. -/
def mkIntegrity (clientMode : Bool) (hA1 : List Nat) : Integrity :=
  let kp := generateIntegrityKeyPair clientMode hA1
  { myKi := kp.1, peerKi := kp.2, mySeqNum := 0, peerSeqNum := 0,
    messageType := [0, 1], sequenceNum := [0, 0, 0, 0] }

/-- Integrity.GetHMac: HMAC-MD5 keyed by ki over seqnum[:4] ++ msg[start:start+msgLen],
truncated to its first 10 bytes. The slice expressions fault when seqnum is
shorter than 4 or the msg slice is out of range. -/
def Integrity.GetHMac (ki seqnum msg : List Nat) (start msgLen : Nat) :
    Except GoEx (List Nat) :=
  if seqnum.length < 4 then .error .panicSlice
  else if msg.length < start + msgLen then .error .panicSlice
  else .ok ((hmacMd5 ki (seqnum.take 4 ++ (msg.drop start).take msgLen)).take 10)

/-- Integrity.IncrementSeqNum: write mySeqNum big-endian into the 4-byte
sequenceNum buffer (the returned error of IntToNetworkByteOrder is discarded
by the source), then increment mySeqNum. A fault in the store aborts. -/
def Integrity.IncrementSeqNum (i : Integrity) : Integrity × Except GoEx Unit :=
  match intToNetworkByteOrder i.mySeqNum i.sequenceNum 0 4 with
  | .ok buf =>
    ({ i with sequenceNum := buf, mySeqNum := i.mySeqNum + 1 }, .ok ())
  | .error .errTooManyBytes => ({ i with mySeqNum := i.mySeqNum + 1 }, .ok ())
  | .error e => (i, .error e)

/-- Integrity.Wrap: zero-length messages short-circuit; otherwise the wrapped
message is payload ++ mac[:10] ++ messageType[:2] ++ sequenceNum[:4], where the
MAC is computed with the own key over the just-written sequence number and the
payload, and the own sequence counter has been incremented. -/
def Integrity.Wrap (i : Integrity) (outgoing : List Nat) (start msgLen : Nat) :
    Integrity × Except GoEx (List Nat) :=
  if msgLen = 0 then (i, .ok [])
  else if outgoing.length < start + msgLen then (i, .error .panicSlice)
  else
    match i.IncrementSeqNum with
    | (i', .error e) => (i', .error e)
    | (i', .ok _) =>
      match Integrity.GetHMac i'.myKi i'.sequenceNum outgoing start msgLen with
      | .error e => (i', .error e)
      | .ok mac =>
        if i'.messageType.length < 2 then (i', .error .panicSlice)
        else if i'.sequenceNum.length < 4 then (i', .error .panicSlice)
        else
          (i', .ok ((outgoing.drop start).take msgLen ++ mac.take 10 ++
            i'.messageType.take 2 ++ i'.sequenceNum.take 4))

/-- The msg field Unwrap copies out of an incoming wrapped message. -/
def unwrapMsg (incoming : List Nat) (start msgSize : Nat) : List Nat :=
  goCopy (List.replicate msgSize 0) (incoming.drop start)

/-- The 10-byte mac field Unwrap copies out of an incoming wrapped message. -/
def unwrapMac (incoming : List Nat) (start msgSize : Nat) : List Nat :=
  goCopy (List.replicate 10 0) (incoming.drop (start + msgSize))

/-- The 2-byte message-type field Unwrap copies out (read but never checked). -/
def unwrapMsgType (incoming : List Nat) (start msgSize : Nat) : List Nat :=
  goCopy (List.replicate 2 0) (incoming.drop (start + msgSize + 10))

/-- The 4-byte sequence-number field Unwrap copies out. -/
def unwrapSeqNum (incoming : List Nat) (start msgSize : Nat) : List Nat :=
  goCopy (List.replicate 4 0) (incoming.drop (start + msgSize + 12))

/-- Integrity.Unwrap: zero-length messages short-circuit; `make([]byte, msgLen-16)`
faults for msgLen below 16; the four copies slice the incoming buffer at
start, start+msgSize, start+msgSize+10 and start+msgSize+12 (a slice past the
end of incoming faults); then the MAC is recomputed with the peer key — a
mismatch returns the empty message with no error — and the received sequence
number must equal peerSeqNum exactly, else a hard error; on success peerSeqNum
is incremented and the message returned. -/
def Integrity.Unwrap (i : Integrity) (incoming : List Nat) (start msgLen : Nat) :
    Integrity × Except GoEx (List Nat) :=
  if msgLen = 0 then (i, .ok [])
  else if (msgLen : Int) - 16 < 0 then (i, .error .panicMakeNegative)
  else
    let msgSize := msgLen - 16
    if incoming.length < start + msgSize + 12 then (i, .error .panicSlice)
    else
      let msg := unwrapMsg incoming start msgSize
      let mac := unwrapMac incoming start msgSize
      let seqNum := unwrapSeqNum incoming start msgSize
      match Integrity.GetHMac i.peerKi seqNum msg 0 msg.length with
      | .error e => (i, .error e)
      | .ok expectedMac =>
        if expectedMac ≠ mac then (i, .ok [])
        else
          match networkByteOrderToInt seqNum 0 4 with
          | .error e => (i, .error e)
          | .ok parsedSeqNum =>
            if parsedSeqNum ≠ i.peerSeqNum then (i, .error .errOutOfOrder)
            else ({ i with peerSeqNum := i.peerSeqNum + 1 }, .ok msg)

/-! ### The rc4Block adapter -/

/-- RC4 cipher state: the 256-byte permutation and the two PRGA indices. -/
structure Rc4Cipher where
  s : List Nat
  i : Nat
  j : Nat
  deriving DecidableEq, Repr

/-- RC4 key schedule (Go's crypto/rc4 NewCipher); a key shorter than 1 or
longer than 256 bytes is a KeySizeError. -/
def rc4NewCipher (key : List Nat) : Except GoEx Rc4Cipher :=
  if key.length < 1 ∨ 256 < key.length then .error .errKeySize
  else
    let s0 := List.range 256
    let sj := (List.range 256).foldl
      (fun (p : List Nat × Nat) i =>
        let s := p.1
        let j := (p.2 + s.getD i 0 + key.getD (i % key.length) 0) % 256
        (((s.set i (s.getD j 0)).set j (s.getD i 0)), j))
      (s0, 0)
    .ok { s := sj.1, i := 0, j := 0 }

/-- One PRGA step: advance the indices, swap, and emit a keystream byte. -/
def rc4Next (c : Rc4Cipher) : Rc4Cipher × Nat :=
  let i := (c.i + 1) % 256
  let j := (c.j + c.s.getD i 0) % 256
  let s := (c.s.set i (c.s.getD j 0)).set j (c.s.getD i 0)
  ({ s := s, i := i, j := j },
    s.getD ((s.getD i 0 + s.getD j 0) % 256) 0)

/-- Go's rc4.Cipher.XORKeyStream(dst, src): XORs each byte of src with the key
stream into dst (a dst shorter than src is an out-of-range fault); returns the
advanced cipher and the new contents of dst. -/
def xorKeyStream (c : Rc4Cipher) (dst src : List Nat) :
    Except GoEx (Rc4Cipher × List Nat) :=
  if dst.length < src.length then .error .panicIndex
  else
    let r := src.foldl
      (fun (p : Rc4Cipher × List Nat) b =>
        let step := rc4Next p.1
        (step.1, p.2 ++ [b ^^^ step.2]))
      (c, [])
    .ok (r.1, r.2 ++ dst.drop src.length)

namespace rc4Block

/-- rc4Block.Encrypt(dst, src) calls XORKeyStream(dst, src); the result is
(advanced cipher, dst after the call, src after the call). -/
def Encrypt (c : Rc4Cipher) (dst src : List Nat) :
    Except GoEx (Rc4Cipher × List Nat × List Nat) :=
  match xorKeyStream c dst src with
  | .error e => .error e
  | .ok (c', d') => .ok (c', d', src)

/-- rc4Block.Decrypt(dst, src) calls XORKeyStream(src, dst) — the source swaps
the arguments — so the keystream-XOR of dst is written into src and dst is
left untouched; the result is (advanced cipher, dst after, src after). -/
def Decrypt (c : Rc4Cipher) (dst src : List Nat) :
    Except GoEx (Rc4Cipher × List Nat × List Nat) :=
  match xorKeyStream c src dst with
  | .error e => .error e
  | .ok (c', s') => .ok (c', dst, s')

end rc4Block

/-- Round trip through two freshly keyed rc4Block adapters: encrypt plain into
a zero destination buffer, feed the resulting ciphertext as the src argument
of Decrypt on a second fresh adapter with a zero destination buffer, and
return the destination buffer's final contents. -/
def rc4RoundTripDst (key plain : List Nat) : Except GoEx (List Nat) :=
  match rc4NewCipher key with
  | .error e => .error e
  | .ok enc =>
    match rc4Block.Encrypt enc (List.replicate plain.length 0) plain with
    | .error e => .error e
    | .ok (_, ct, _) =>
      match rc4NewCipher key with
      | .error e => .error e
      | .ok dec =>
        match rc4Block.Decrypt dec (List.replicate plain.length 0) ct with
        | .error e => .error e
        | .ok (_, dstAfter, _) => .ok dstAfter

/-! ### Helper lemmas about the Integrity operations -/

/-- The 4-byte big-endian encoding of the uint32 conversion of a Go int,
matching the bytes intToNetworkByteOrder stores for start 0, count 4. -/
def be32 (num : Int) : List Nat :=
  (List.range 4).map fun idx =>
    (((num.emod 4294967296).toNat) >>> (8 * (4 - 1 - idx))) &&& 255

/-- The value networkByteOrderToInt reads out of a 4-byte buffer. -/
def beVal (s : List Nat) : Int :=
  (((List.range 4).foldl
    (fun acc idx => (acc <<< 8) ||| ((s.getD (0 + idx) 0) &&& 255)) 0 : Nat) : Int)

theorem be32_length (num : Int) : (be32 num).length = 4 := by
  simp [be32]

theorem goCopy_length (dst src : List Nat) :
    (goCopy dst src).length = dst.length := by
  unfold goCopy
  simp [List.length_append, List.length_take, List.length_drop]

theorem goCopy_replicate (n : Nat) (src : List Nat) (h : n ≤ src.length) :
    goCopy (List.replicate n 0) src = src.take n := by
  unfold goCopy
  simp [List.length_replicate, Nat.min_eq_left h]

theorem intToNetworkByteOrder_four (num : Int) (buf : List Nat)
    (h : buf.length = 4) :
    intToNetworkByteOrder num buf 0 4 = .ok (be32 num) := by
  unfold intToNetworkByteOrder be32
  rw [if_neg (by omega), if_neg (by omega)]
  simp [List.take_zero, List.drop_eq_nil_of_le (by omega : buf.length ≤ 0 + 4)]

theorem networkByteOrderToInt_four (s : List Nat) (h : s.length = 4) :
    networkByteOrderToInt s 0 4 = .ok (beVal s) := by
  unfold networkByteOrderToInt beVal
  rw [if_neg (by omega), if_neg (by omega)]

theorem incrementSeqNum_spec (i : Integrity) (hsq : i.sequenceNum.length = 4) :
    i.IncrementSeqNum =
      ({ i with sequenceNum := be32 i.mySeqNum, mySeqNum := i.mySeqNum + 1 },
        .ok ()) := by
  unfold Integrity.IncrementSeqNum
  rw [intToNetworkByteOrder_four _ _ hsq]

theorem getHMac_ok (ki seqnum msg : List Nat) (start msgLen : Nat)
    (hs : seqnum.length = 4) (hb : start + msgLen ≤ msg.length) :
    Integrity.GetHMac ki seqnum msg start msgLen =
      .ok ((hmacMd5 ki (seqnum ++ (msg.drop start).take msgLen)).take 10) := by
  unfold Integrity.GetHMac
  rw [if_neg (by omega), if_neg (by omega)]
  simp [List.take_of_length_le (le_of_eq hs)]

theorem getHMac_whole (ki seqnum msg : List Nat) (hs : seqnum.length = 4) :
    Integrity.GetHMac ki seqnum msg 0 msg.length =
      .ok ((hmacMd5 ki (seqnum ++ msg)).take 10) := by
  rw [getHMac_ok ki seqnum msg 0 msg.length hs (by omega)]
  simp

/-- Behaviour of Wrap on a well-formed context and an in-range slice: the
wrapped message is the payload, the first 10 bytes of the HMAC over the
freshly written big-endian sequence number and the payload, the 2-byte message
type, and the 4-byte sequence number, and the own counter has advanced. -/
theorem wrap_spec (i : Integrity) (outgoing : List Nat) (start msgLen : Nat)
    (hmt : i.messageType = [0, 1]) (hsq : i.sequenceNum.length = 4)
    (h0 : msgLen ≠ 0) (hb : start + msgLen ≤ outgoing.length) :
    i.Wrap outgoing start msgLen =
      ({ i with sequenceNum := be32 i.mySeqNum, mySeqNum := i.mySeqNum + 1 },
       .ok ((outgoing.drop start).take msgLen ++
         (hmacMd5 i.myKi
           (be32 i.mySeqNum ++ (outgoing.drop start).take msgLen)).take 10 ++
         [0, 1] ++ be32 i.mySeqNum)) := by
  unfold Integrity.Wrap
  rw [if_neg h0, if_neg (by omega)]
  rw [incrementSeqNum_spec i hsq]
  dsimp only
  rw [getHMac_ok _ _ _ _ _ (be32_length i.mySeqNum) hb]
  dsimp only
  rw [if_neg (by rw [hmt]; decide), if_neg (by rw [be32_length]; omega)]
  rw [hmt]
  simp [List.take_take, List.take_of_length_le (le_of_eq (be32_length i.mySeqNum))]

theorem unwrapMsg_parts (P mac t s : List Nat) :
    unwrapMsg (P ++ mac ++ t ++ s) 0 P.length = P := by
  unfold unwrapMsg
  rw [List.drop_zero, goCopy_replicate _ _ (by simp)]
  rw [List.append_assoc, List.append_assoc, List.take_left]

theorem unwrapMac_parts (P mac t s : List Nat) (hm : mac.length = 10) :
    unwrapMac (P ++ mac ++ t ++ s) 0 P.length = mac := by
  unfold unwrapMac
  rw [Nat.zero_add, goCopy_replicate _ _ (by simp [hm])]
  rw [List.append_assoc, List.append_assoc, List.drop_left]
  rw [List.take_left' hm]

theorem unwrapSeqNum_parts (P mac t s : List Nat)
    (hm : mac.length = 10) (ht : t.length = 2) (hs : s.length = 4) :
    unwrapSeqNum (P ++ mac ++ t ++ s) 0 P.length = s := by
  unfold unwrapSeqNum
  rw [Nat.zero_add, goCopy_replicate _ _ (by simp [hm, ht, hs])]
  rw [List.drop_left' (by simp [hm, ht] :
    (P ++ mac ++ t).length = P.length + 12)]
  exact List.take_of_length_le (le_of_eq hs)

/-- Behaviour of Unwrap on a message of the wrapped shape: the MAC is
recomputed with the peer key over the received sequence bytes and the body; a
mismatch is a soft empty success, a sequence mismatch a hard error, and
otherwise the body is returned with peerSeqNum advanced. -/
theorem unwrap_wrapped (j : Integrity) (P mac t s : List Nat)
    (hm : mac.length = 10) (ht : t.length = 2) (hs : s.length = 4) :
    j.Unwrap (P ++ mac ++ t ++ s) 0 (P.length + 16) =
      if (hmacMd5 j.peerKi (s ++ P)).take 10 ≠ mac then (j, .ok [])
      else if beVal s ≠ j.peerSeqNum then (j, .error .errOutOfOrder)
      else ({ j with peerSeqNum := j.peerSeqNum + 1 }, .ok P) := by
  have hw : (P ++ mac ++ t ++ s).length = P.length + 16 := by
    simp [hm, ht, hs]
  unfold Integrity.Unwrap
  rw [if_neg (by omega), if_neg (by push_cast; omega)]
  simp only [Nat.add_sub_cancel]
  rw [if_neg (by omega)]
  rw [unwrapMsg_parts, unwrapMac_parts P mac t s hm,
    unwrapSeqNum_parts P mac t s hm ht hs]
  rw [getHMac_whole _ _ _ hs]
  dsimp only
  rw [networkByteOrderToInt_four s hs]

theorem unwrapSeqNum_length (incoming : List Nat) (start msgSize : Nat) :
    (unwrapSeqNum incoming start msgSize).length = 4 := by
  unfold unwrapSeqNum
  rw [goCopy_length]
  simp

/-- Reduction of Unwrap for a declared length of at least 16 and an in-range
incoming buffer, in terms of the extracted msg, mac and sequence fields. -/
theorem unwrap_reduction (i : Integrity) (incoming : List Nat)
    (start msgLen : Nat) (h16 : 16 ≤ msgLen)
    (hb : start + (msgLen - 16) + 12 ≤ incoming.length) :
    i.Unwrap incoming start msgLen =
      if (hmacMd5 i.peerKi (unwrapSeqNum incoming start (msgLen - 16) ++
            unwrapMsg incoming start (msgLen - 16))).take 10 ≠
          unwrapMac incoming start (msgLen - 16) then (i, .ok [])
      else if beVal (unwrapSeqNum incoming start (msgLen - 16)) ≠
          i.peerSeqNum then (i, .error .errOutOfOrder)
      else ({ i with peerSeqNum := i.peerSeqNum + 1 },
        .ok (unwrapMsg incoming start (msgLen - 16))) := by
  unfold Integrity.Unwrap
  rw [if_neg (by omega), if_neg (by omega), if_neg (by omega)]
  dsimp only
  rw [getHMac_whole _ _ _ (unwrapSeqNum_length incoming start (msgLen - 16))]
  dsimp only
  rw [networkByteOrderToInt_four _ (unwrapSeqNum_length incoming start (msgLen - 16))]

/-- The two keys a client-mode and a server-mode context derive from the same
secret are assigned oppositely: one side's own key is the other's peer key. -/
theorem mkIntegrity_myKi_peerKi (cm : Bool) (hA1 : List Nat) :
    (mkIntegrity cm hA1).myKi = (mkIntegrity (!cm) hA1).peerKi := by
  cases cm <;> rfl

/-! ### Claim theorems -/

/-- C1: for every non-empty payload and every pair of Integrity contexts built
from the same shared secret with opposite clientMode flags, feeding one side's
Wrap output into the other side's Unwrap returns exactly the payload, and the
receiving side's expected peer sequence number advances by exactly one. -/
theorem integrity_wrap_unwrap_roundtrip (hA1 P : List Nat) (cm : Bool)
    (hP : P ≠ []) :
    ∃ w : List Nat,
      ((mkIntegrity cm hA1).Wrap P 0 P.length).2 = .ok w ∧
      (mkIntegrity (!cm) hA1).Unwrap w 0 w.length =
        ({ mkIntegrity (!cm) hA1 with
            peerSeqNum := (mkIntegrity (!cm) hA1).peerSeqNum + 1 }, .ok P) := by
  have h0 : P.length ≠ 0 := fun h => hP (List.length_eq_zero.mp h)
  have hwrap := wrap_spec (mkIntegrity cm hA1) P 0 P.length rfl rfl h0 (by omega)
  rw [List.drop_zero, List.take_length] at hwrap
  refine ⟨P ++ (hmacMd5 (mkIntegrity cm hA1).myKi
      (be32 (mkIntegrity cm hA1).mySeqNum ++ P)).take 10 ++ [0, 1] ++
      be32 (mkIntegrity cm hA1).mySeqNum, ?_, ?_⟩
  · rw [hwrap]
  · have hm : ((hmacMd5 (mkIntegrity cm hA1).myKi
        (be32 (mkIntegrity cm hA1).mySeqNum ++ P)).take 10).length = 10 := by
      simp [List.length_take, hmacMd5_length]
    have hwl : (P ++ (hmacMd5 (mkIntegrity cm hA1).myKi
        (be32 (mkIntegrity cm hA1).mySeqNum ++ P)).take 10 ++ [0, 1] ++
        be32 (mkIntegrity cm hA1).mySeqNum).length = P.length + 16 := by
      simp [List.length_append, hm, be32_length]
    rw [hwl, unwrap_wrapped _ P _ [0, 1] _ hm (by decide) (be32_length _)]
    rw [mkIntegrity_myKi_peerKi cm hA1]
    have hseq : beVal (be32 (mkIntegrity cm hA1).mySeqNum) =
        (mkIntegrity (!cm) hA1).peerSeqNum := by
      show beVal (be32 0) = 0
      decide
    rw [if_neg (fun hc => hc rfl), if_neg (fun hc => hc hseq)]

/-- Witness for C1 at the concrete secret [] and payload [42]. -/
theorem integrity_wrap_unwrap_roundtrip_witness :
    ∃ w : List Nat,
      ((mkIntegrity true []).Wrap [42] 0 ([42] : List Nat).length).2 = .ok w ∧
      (mkIntegrity (!true) []).Unwrap w 0 w.length =
        ({ mkIntegrity (!true) [] with
            peerSeqNum := (mkIntegrity (!true) []).peerSeqNum + 1 },
          .ok [42]) :=
  integrity_wrap_unwrap_roundtrip [] [42] true (by decide)

/-- C2: the claim says parseQop "auth-int,auth-conf" returns the mask sequence
[INTEGRITY_ONLY_PROTECTION, PRIVACY_PROTECTION, 0], each input token being
matched against every canonical entry. The code fails this: strings.Split is
called with the four-character separator string ", \t\n" so the whole input
stays one token, and the matching loop compares each token only against the
canonical entry at the input position, so the parse rejects the input with the
invalid-token error instead. -/
theorem parseQop_authint_authconf_invalid :
    parseQop (strBytes "auth-int,auth-conf") = .error .errInvalidToken ∧
    parseQop (strBytes "auth-int,auth-conf") ≠
      .ok [INTEGRITY_ONLY_PROTECTION, PRIVACY_PROTECTION, 0] := by
  decide

/-- C3 counterexample: parseQop "" does not return
[PRIVACY_PROTECTION, INTEGRITY_ONLY_PROTECTION, NO_PROTECTION] as claimed —
DEFAULT_QOP is the single-entry sequence [NO_PROTECTION]. -/
theorem parseQop_empty_not_full_default :
    parseQop (strBytes "") ≠
      .ok [PRIVACY_PROTECTION, INTEGRITY_ONLY_PROTECTION, NO_PROTECTION] := by
  decide

/-- C3 (amended): parseQop applied to the empty string returns the default
mask sequence [NO_PROTECTION] (the default QOP is auth only), and parseStrength
applied to the empty string returns [HIGH_STRENGTH, MEDIUM_STRENGTH,
LOW_STRENGTH]. -/
theorem parse_empty_defaults :
    parseQop (strBytes "") = .ok [NO_PROTECTION] ∧
    parseStrength (strBytes "") =
      .ok [HIGH_STRENGTH, MEDIUM_STRENGTH, LOW_STRENGTH] := by
  decide

/-- C4: for every non-empty plaintext slice, Wrap returns the plaintext
followed by exactly 16 trailer bytes — the first 10 bytes of the HMAC-MD5
keyed by the own key over the 4-byte big-endian sequence number and the
plaintext, then the 2-byte big-endian message type equal to 1 (the bytes
[0, 1]), then the 4-byte big-endian own sequence number — and the own sequence
counter increases by one. Stated over any context whose message-type and
sequence buffers have the shape construction establishes. -/
theorem wrap_layout (i : Integrity) (outgoing : List Nat) (start msgLen : Nat)
    (hmt : i.messageType = [0, 1]) (hsq : i.sequenceNum.length = 4)
    (h0 : msgLen ≠ 0) (hb : start + msgLen ≤ outgoing.length) :
    i.Wrap outgoing start msgLen =
      ({ i with sequenceNum := be32 i.mySeqNum, mySeqNum := i.mySeqNum + 1 },
       .ok ((outgoing.drop start).take msgLen ++
         ((hmacMd5 i.myKi
            (be32 i.mySeqNum ++ (outgoing.drop start).take msgLen)).take 10 ++
          [0, 1] ++ be32 i.mySeqNum))) ∧
    ((hmacMd5 i.myKi
        (be32 i.mySeqNum ++ (outgoing.drop start).take msgLen)).take 10 ++
      [0, 1] ++ be32 i.mySeqNum).length = 16 ∧
    intToNetworkByteOrder 1 [0, 0] 0 2 = .ok [0, 1] := by
  refine ⟨?_, ?_, by decide⟩
  · rw [wrap_spec i outgoing start msgLen hmt hsq h0 hb]
    simp [List.append_assoc]
  · simp [List.length_append, List.length_take, hmacMd5_length, be32_length]

/-- Witness for C4 at a concrete well-formed context and the payload [7]. -/
theorem wrap_layout_witness :
    (mkIntegrity true []).Wrap [7] 0 1 =
      ({ mkIntegrity true [] with
          sequenceNum := be32 (mkIntegrity true []).mySeqNum,
          mySeqNum := (mkIntegrity true []).mySeqNum + 1 },
       .ok ((([7] : List Nat).drop 0).take 1 ++
         ((hmacMd5 (mkIntegrity true []).myKi
            (be32 (mkIntegrity true []).mySeqNum ++
              (([7] : List Nat).drop 0).take 1)).take 10 ++
          [0, 1] ++ be32 (mkIntegrity true []).mySeqNum))) :=
  (wrap_layout (mkIntegrity true []) [7] 0 1 rfl rfl (by decide) (by decide)).1

/-- C5: Unwrap's failure behaviour is asymmetric. For any in-range input of
declared length at least 16: if the HMAC recomputed with the peer key over the
received sequence bytes and body differs from the received 10-byte MAC field,
Unwrap returns the empty message with no error and an unchanged context (soft
discard); if the MAC matches but the received sequence number differs from the
expected next peer sequence number, Unwrap returns the hard out-of-order error
and no plaintext is delivered. -/
theorem unwrap_failure_asymmetry (i : Integrity) (incoming : List Nat)
    (start msgLen : Nat) (h16 : 16 ≤ msgLen)
    (hb : start + (msgLen - 16) + 12 ≤ incoming.length) :
    ((hmacMd5 i.peerKi (unwrapSeqNum incoming start (msgLen - 16) ++
        unwrapMsg incoming start (msgLen - 16))).take 10 ≠
          unwrapMac incoming start (msgLen - 16) →
      i.Unwrap incoming start msgLen = (i, .ok [])) ∧
    ((hmacMd5 i.peerKi (unwrapSeqNum incoming start (msgLen - 16) ++
        unwrapMsg incoming start (msgLen - 16))).take 10 =
          unwrapMac incoming start (msgLen - 16) →
      beVal (unwrapSeqNum incoming start (msgLen - 16)) ≠ i.peerSeqNum →
      i.Unwrap incoming start msgLen = (i, .error .errOutOfOrder)) := by
  have hred := unwrap_reduction i incoming start msgLen h16 hb
  constructor
  · intro hmac
    rw [hred, if_pos hmac]
  · intro hmac hseq
    rw [hred, if_neg (fun hc => hc hmac), if_pos hseq]

/-- Witness for C5 at a concrete context and a 16-byte all-zero input. -/
theorem unwrap_failure_asymmetry_witness :
    ((hmacMd5 (mkIntegrity true []).peerKi
        (unwrapSeqNum (List.replicate 16 0) 0 (16 - 16) ++
          unwrapMsg (List.replicate 16 0) 0 (16 - 16))).take 10 ≠
          unwrapMac (List.replicate 16 0) 0 (16 - 16) →
      (mkIntegrity true []).Unwrap (List.replicate 16 0) 0 16 =
        (mkIntegrity true [], .ok [])) ∧
    ((hmacMd5 (mkIntegrity true []).peerKi
        (unwrapSeqNum (List.replicate 16 0) 0 (16 - 16) ++
          unwrapMsg (List.replicate 16 0) 0 (16 - 16))).take 10 =
          unwrapMac (List.replicate 16 0) 0 (16 - 16) →
      beVal (unwrapSeqNum (List.replicate 16 0) 0 (16 - 16)) ≠
          (mkIntegrity true []).peerSeqNum →
      (mkIntegrity true []).Unwrap (List.replicate 16 0) 0 16 =
        (mkIntegrity true [], .error .errOutOfOrder)) :=
  unwrap_failure_asymmetry (mkIntegrity true []) (List.replicate 16 0) 0 16
    (by decide) (by decide)

/-- C6 counterexample: the zero-length wrapped message (the Wrap output for an
empty payload) is successfully unwrapped, leaves the context unchanged, and a
second identical Unwrap call succeeds again instead of failing with the
replay/reorder error — so the claim fails for this already-consumed wrapped
message. -/
theorem unwrap_replay_empty_counterexample :
    ((mkIntegrity true []).Wrap [] 0 0).2 = .ok [] ∧
    (mkIntegrity false []).Unwrap [] 0 0 = (mkIntegrity false [], .ok []) ∧
    ((mkIntegrity false []).Unwrap [] 0 0).2 ≠ .error .errOutOfOrder :=
  ⟨rfl, rfl, fun hc => Except.noConfusion hc⟩

/-- C6 (amended): for every wrapped message produced from a non-empty payload
that a matching context has already successfully unwrapped, a second Unwrap of
the same message on that context fails with the replay/reorder error, and the
expected peer sequence number is unchanged by the failing call. -/
theorem unwrap_replay_rejected (hA1 P : List Nat) (cm : Bool) (hP : P ≠ []) :
    ∃ (w : List Nat) (b₁ : Integrity),
      ((mkIntegrity cm hA1).Wrap P 0 P.length).2 = .ok w ∧
      (mkIntegrity (!cm) hA1).Unwrap w 0 w.length = (b₁, .ok P) ∧
      b₁.Unwrap w 0 w.length = (b₁, .error .errOutOfOrder) := by
  have h0 : P.length ≠ 0 := fun h => hP (List.length_eq_zero.mp h)
  have hwrap := wrap_spec (mkIntegrity cm hA1) P 0 P.length rfl rfl h0 (by omega)
  rw [List.drop_zero, List.take_length] at hwrap
  have hm : ((hmacMd5 (mkIntegrity cm hA1).myKi
      (be32 (mkIntegrity cm hA1).mySeqNum ++ P)).take 10).length = 10 := by
    simp [List.length_take, hmacMd5_length]
  have hwl : (P ++ (hmacMd5 (mkIntegrity cm hA1).myKi
      (be32 (mkIntegrity cm hA1).mySeqNum ++ P)).take 10 ++ [0, 1] ++
      be32 (mkIntegrity cm hA1).mySeqNum).length = P.length + 16 := by
    simp [List.length_append, hm, be32_length]
  refine ⟨P ++ (hmacMd5 (mkIntegrity cm hA1).myKi
      (be32 (mkIntegrity cm hA1).mySeqNum ++ P)).take 10 ++ [0, 1] ++
      be32 (mkIntegrity cm hA1).mySeqNum,
    { mkIntegrity (!cm) hA1 with
        peerSeqNum := (mkIntegrity (!cm) hA1).peerSeqNum + 1 }, ?_, ?_, ?_⟩
  · rw [hwrap]
  · rw [hwl, unwrap_wrapped _ P _ [0, 1] _ hm (by decide) (be32_length _)]
    rw [mkIntegrity_myKi_peerKi cm hA1]
    have hseq : beVal (be32 (mkIntegrity cm hA1).mySeqNum) =
        (mkIntegrity (!cm) hA1).peerSeqNum := by
      show beVal (be32 0) = 0
      decide
    rw [if_neg (fun hc => hc rfl), if_neg (fun hc => hc hseq)]
  · rw [hwl, unwrap_wrapped _ P _ [0, 1] _ hm (by decide) (be32_length _)]
    have hkey : (mkIntegrity cm hA1).myKi =
        ({ mkIntegrity (!cm) hA1 with
            peerSeqNum := (mkIntegrity (!cm) hA1).peerSeqNum + 1 } :
          Integrity).peerKi :=
      mkIntegrity_myKi_peerKi cm hA1
    rw [hkey]
    have hseq : beVal (be32 (mkIntegrity cm hA1).mySeqNum) ≠
        ({ mkIntegrity (!cm) hA1 with
            peerSeqNum := (mkIntegrity (!cm) hA1).peerSeqNum + 1 } :
          Integrity).peerSeqNum := by
      show beVal (be32 0) ≠ 0 + 1
      decide
    rw [if_neg (fun hc => hc rfl), if_pos hseq]

/-- Witness for C6's amended theorem at the concrete secret [] and payload [9]. -/
theorem unwrap_replay_rejected_witness :
    ∃ (w : List Nat) (b₁ : Integrity),
      ((mkIntegrity false []).Wrap [9] 0 ([9] : List Nat).length).2 = .ok w ∧
      (mkIntegrity (!false) []).Unwrap w 0 w.length = (b₁, .ok [9]) ∧
      b₁.Unwrap w 0 w.length = (b₁, .error .errOutOfOrder) :=
  unwrap_replay_rejected [] [9] false (by decide)

/-- C7: the claim says the strength table maps 3DES and RC4-128 high, DES and
RC4-56 medium, RC4-40 low, in particular "des" to MEDIUM_STRENGTH. The code
fails this at the "des" entry: CIPHER_MASKS uses DES_3_STRENGTH (high) there,
even though DES_STRENGTH is defined as MEDIUM_STRENGTH and left unused; the
other four entries match the claim. -/
theorem cipher_masks_des_high :
    CIPHER_TOKENS.getD DES [] = strBytes "des" ∧
    CIPHER_MASKS.getD DES 0 = HIGH_STRENGTH ∧
    CIPHER_MASKS.getD DES 0 ≠ MEDIUM_STRENGTH ∧
    DES_STRENGTH = MEDIUM_STRENGTH ∧
    CIPHER_MASKS.getD DES3 0 = HIGH_STRENGTH ∧
    CIPHER_MASKS.getD RC4 0 = HIGH_STRENGTH ∧
    CIPHER_MASKS.getD RC4_56 0 = MEDIUM_STRENGTH ∧
    CIPHER_MASKS.getD RC4_40 0 = LOW_STRENGTH := by
  decide

/-- C8: the claim says NewIntegrity's 2-byte message-type store and the
sequence-number stores stay within allocated buffers. The code fails this:
the Integrity literal never allocates messageType or sequenceNum, so for both
clientMode values the very first store (message type 1 at index 1 of the empty
messageType buffer) is an out-of-range fault and construction never
succeeds. -/
theorem newIntegrity_store_fault :
    ∀ (clientMode : Bool) (hA1 : List Nat),
      NewIntegrity clientMode hA1 = .error .panicIndex ∧
      GoEx.panicIndex.isPanic = true :=
  fun _ _ => ⟨rfl, rfl⟩

/-- C9 counterexample: at declared length 5 (between 1 and 15), Unwrap does
not return an ordinary error or an empty result — it reaches the
negative-length allocation make([]byte, msgLen-16), a runtime fault. -/
theorem unwrap_short_alloc_counterexample :
    ((mkIntegrity true []).Unwrap (List.replicate 5 0) 0 5).2
        = .error .panicMakeNegative ∧
    GoEx.panicMakeNegative.isPanic = true :=
  ⟨rfl, rfl⟩

/-- C9 (amended): Unwrap returns the empty message for declared length 0, and
for every declared length between 1 and 15 inclusive it attempts the
negative-length allocation make([]byte, msgLen-16) — the allocation fault
branch of the embedding — leaving the context unchanged; the branch is avoided
only when msgLen is 0 or at least 16. -/
theorem unwrap_short_alloc_fault :
    (∀ (i : Integrity) (incoming : List Nat) (start : Nat),
        i.Unwrap incoming start 0 = (i, .ok [])) ∧
    (∀ (i : Integrity) (incoming : List Nat) (start msgLen : Nat),
        1 ≤ msgLen → msgLen ≤ 15 →
        i.Unwrap incoming start msgLen = (i, .error .panicMakeNegative)) := by
  constructor
  · intro i incoming start
    rfl
  · intro i incoming start msgLen h1 h15
    unfold Integrity.Unwrap
    rw [if_neg (by omega), if_pos (by omega)]

/-- Witness for C9's amended theorem at a concrete short input. -/
theorem unwrap_short_alloc_fault_witness :
    (mkIntegrity false []).Unwrap [] 0 7 =
      (mkIntegrity false [], .error .panicMakeNegative) :=
  unwrap_short_alloc_fault.2 (mkIntegrity false []) [] 0 7 (by decide) (by decide)

/-- C10: the claim says Decrypt(dst, src) reads the ciphertext from src and
writes the keystream-XOR into dst, so decrypting an Encrypt output with a
freshly keyed adapter recovers the plaintext in the destination buffer. The
code fails this: Decrypt passes (src, dst) to XORKeyStream, so the result is
written into the src buffer, the destination stays at its old contents, and
the round trip leaves the zero buffer instead of the plaintext [1]. -/
theorem rc4_decrypt_writes_src :
    rc4RoundTripDst [1, 2, 3] [1] = .ok [0] ∧
    (Except.ok [0] : Except GoEx (List Nat)) ≠ .ok [1] := by
  decide

end GoSasl
